import Mathlib

/-!
# Verification of the pr-service reviewer assignment engine

Shallow embedding of the Go repository `er-davo/pr-service`:
* `internal/models` (User, Team, PullRequest, PRReviewer),
* `internal/service/pr_service.go` (CreatePR, PRMerge, PRReassign,
  TeamAdd, UsersSetIsActive),
* `internal/app/utils.go` (isRetryableFunc),
* the repository layer's store semantics (`internal/repository/*.go`
  together with the SQL migrations).

Gateway calls are modelled as oracles: each service function receives a
`Gateway` record of per-call responses (exactly the setting of the
gomock-based unit tests in `pr_service_test.go`) and returns its result
together with the list of mutating gateway invocations it issued.
A `Store` type gives the persistent-state semantics of those mutating
calls, translated from the SQL in `internal/repository`.
-/

/-- UUIDs are modelled as natural numbers; `uuid.Nil` is `0`. -/
abbrev UUID := Nat

/-- Go's `uuid.Nil`, the zero UUID. -/
def uuidNil : UUID := 0

/-- Errors that flow through the service.  Go sentinel errors
(`repository.ErrNotFound`, `service.ErrNoAvailableReviewer`, ...) become
constructors; an arbitrary non-sentinel error (`errors.New("db error")`,
a transient connection failure, ...) is `other n`.  The service code never
wraps errors before returning them, so `errors.Is` on these values is
plain equality (`errorIs`). -/
inductive GoError where
  | errNotFound
  | errDuplicate
  | errInvalidID
  | errForeignKeyViolation
  | errTxAborted
  | errNoAvailableReviewer
  | errCanNotReassing
  | errTeamAlreadyExists
  | errNotAssinged
  | goPanic
  | other (n : Nat)
deriving DecidableEq, Repr

/-- `errors.Is(err, target)` for the unwrapped sentinel errors used here. -/
def errorIs (e target : GoError) : Bool := e == target

/-- `models.User`. -/
structure User where
  id : UUID
  teamID : Option UUID
  name : String
  isActive : Bool
deriving DecidableEq, Repr

/-- `models.PRReviewer` (a row of the `pr_reviewers` table). -/
structure PRReviewer where
  id : UUID
  prid : UUID
  assignedAt : Nat
deriving DecidableEq, Repr

/-- `models.PRStatusOpen` (the `'OPEN'` member of the `pr_status` enum). -/
def PRStatusOpen : String := "OPEN"

/-- `models.PRStatusMerged` (the `'MERGED'` member of the `pr_status` enum). -/
def PRStatusMerged : String := "MERGED"

/-- `models.PullRequest`; timestamps are naturals, `mergedAt` is the
nullable `*time.Time`. -/
structure PullRequest where
  id : UUID
  name : String
  authorID : UUID
  status : String
  createdAt : Nat
  mergedAt : Option Nat
  reviewers : List PRReviewer
deriving DecidableEq, Repr

/-- `models.Team`. -/
structure Team where
  id : UUID
  name : String
  members : List User
deriving DecidableEq, Repr

/-! ## Retry classification (`internal/app/utils.go`) -/

/-- The `unretryableErrors` slice inside `isRetryableFunc`
(`internal/app/utils.go`); the source lists `repository.ErrNotFound`
twice, which is kept here verbatim. -/
def unretryableErrors : List GoError :=
  [GoError.errDuplicate, GoError.errNotFound, GoError.errInvalidID,
   GoError.errForeignKeyViolation, GoError.errNotFound, GoError.errTxAborted]

/-- `isRetryableFunc` from `internal/app/utils.go`: an error is retryable
unless `errors.Is` matches one of the listed sentinels. -/
def isRetryableFunc (e : GoError) : Bool :=
  !(unretryableErrors.any (fun u => errorIs e u))

/-- Modelled from the spec: the retry loop of the `internal/retry`
package, whose source is not in the repository snapshot (only its callers
and configuration are).  Spec §4.1: "Re-invokes `operation` up to a
configured maximum attempt count. ... Before retrying, consults a
classifier function `isRetryable(error) -> bool`; if the classifier
returns false ... retry stops immediately and the error is returned
as-is. Exhausting attempts returns the last observed error."
Backoff delays are irrelevant to attempt counting and are omitted.
`attempt` is the 1-based index of the attempt being made and `fuel` the
number of further attempts allowed after it; the result pairs the final
outcome with the total number of attempts performed. -/
def retryGo (isRetryable : GoError → Bool) (op : Nat → Except GoError Unit) :
    Nat → Nat → (Except GoError Unit) × Nat
  | attempt, fuel =>
    match op attempt with
    | .ok _ => (.ok (), attempt)
    | .error e =>
      if !(isRetryable e) then (.error e, attempt)
      else
        match fuel with
        | 0 => (.error e, attempt)
        | fuel' + 1 => retryGo isRetryable op (attempt + 1) fuel'

/-- Modelled from the spec: `Retrier.Do` with a maximum attempt count
(spec §4.1); returns the outcome and the number of attempts performed. -/
def retryDo (maxAttempts : Nat) (isRetryable : GoError → Bool)
    (op : Nat → Except GoError Unit) : (Except GoError Unit) × Nat :=
  retryGo isRetryable op 1 (maxAttempts - 1)

/-! ## The gateway oracle and the mutating-call log -/

/-- A mutating persistence-gateway invocation, recorded with the
arguments the service passed. -/
inductive Call where
  | prCreate (pr : PullRequest)
  | assignReviewers (prID : UUID) (reviewerIDs : List UUID)
  | replaceReviewer (prID oldID newID : UUID)
  | merge (id : UUID)
  | teamCreate (team : Team)
  | userCreate (user : User)
  | updateActive (id : UUID) (active : Bool)
deriving DecidableEq, Repr

/-- The persistence gateway as a response oracle: one field per
repository method the service uses (the `TeamRepository`,
`UserRepository` and `PRRepository` interfaces of `pr_service.go`).
`userCreate` and `teamCreate` return the id the `RETURNING id` scan
writes back into the passed aggregate. -/
structure Gateway where
  prCreate : PullRequest → Except GoError Unit
  prGetByID : UUID → Except GoError PullRequest
  assignReviewers : UUID → List UUID → Except GoError Unit
  replaceReviewer : UUID → UUID → UUID → Except GoError Unit
  prMerge : UUID → Except GoError Unit
  listByReviewer : UUID → Except GoError (List PullRequest)
  userGetByID : UUID → Except GoError User
  getActiveByTeam : UUID → Except GoError (List User)
  getByTeam : UUID → Except GoError (List User)
  userCreate : User → Except GoError UUID
  updateActive : UUID → Bool → Except GoError Unit
  teamCreate : Team → Except GoError UUID
  teamGetByName : String → Except GoError Team

/-! ## The service functions (`internal/service/pr_service.go`)

Each function returns its Go result together with the list of mutating
gateway invocations it issued (in order).  Logging calls to `zap` have no
observable effect and are dropped. -/

/-- `PRService.CreatePR`.  The Go body dereferences `*author.TeamID`
without a nil check; a nil `TeamID` is a runtime panic, modelled as the
`goPanic` error. -/
def CreatePR (g : Gateway) (pr : PullRequest) :
    (Except GoError Unit) × List Call :=
  match g.prCreate pr with
  | .error e => (.error e, [.prCreate pr])
  | .ok _ =>
    match g.userGetByID pr.authorID with
    | .error e => (.error e, [.prCreate pr])
    | .ok author =>
      match author.teamID with
      | none => (.error .goPanic, [.prCreate pr])
      | some teamID =>
        match g.getActiveByTeam teamID with
        | .error e => (.error e, [.prCreate pr])
        | .ok activeUsers0 =>
          let activeUsers :=
            if activeUsers0.length > 2 then activeUsers0.take 2 else activeUsers0
          let uuids := activeUsers.map (fun u => u.id)
          match g.assignReviewers pr.id uuids with
          | .error e => (.error e, [.prCreate pr, .assignReviewers pr.id uuids])
          | .ok _ => (.ok (), [.prCreate pr, .assignReviewers pr.id uuids])

/-- `PRService.PRMerge`: fetch, return unchanged if already merged,
otherwise issue the merge mutation and return the PR as fetched. -/
def PRMerge (g : Gateway) (id : UUID) :
    (Except GoError PullRequest) × List Call :=
  match g.prGetByID id with
  | .error e => (.error e, [])
  | .ok pr =>
    if pr.status == PRStatusMerged then (.ok pr, [])
    else
      match g.prMerge id with
      | .error e => (.error e, [.merge id])
      | .ok _ => (.ok pr, [.merge id])

/-- The candidate scan of `PRService.PRReassign`: `var newUserID
uuid.UUID` starts as `uuid.Nil`; the loop walks the active pool in order,
skips `oldUserID` and anyone already a reviewer on the PR, and breaks at
the first remaining candidate.  The result is the final value of
`newUserID` (still `uuid.Nil` when the loop never assigned it). -/
def selectNewReviewer (users : List User) (oldUserID : UUID)
    (revs : List PRReviewer) : UUID :=
  match users with
  | [] => uuidNil
  | u :: rest =>
    if u.id ≠ oldUserID then
      if revs.any (fun r => r.id == u.id) then
        selectNewReviewer rest oldUserID revs
      else u.id
    else selectNewReviewer rest oldUserID revs

/-- `PRService.PRReassign`.  On success the appended in-memory reviewer
record is `PRReviewer{ID: newUserID, PRID: pr.ID}` with zero-value
`AssignedAt`. -/
def PRReassign (g : Gateway) (prID oldUserID : UUID) :
    (Except GoError PullRequest) × List Call :=
  match g.prGetByID prID with
  | .error e => (.error e, [])
  | .ok pr =>
    if pr.status == PRStatusMerged then (.error .errCanNotReassing, [])
    else if !(pr.reviewers.any (fun r => r.id == oldUserID)) then
      (.error .errNotAssinged, [])
    else
      match g.userGetByID pr.authorID with
      | .error e => (.error e, [])
      | .ok author =>
        match author.teamID with
        | none => (.error .goPanic, [])
        | some teamID =>
          match g.getActiveByTeam teamID with
          | .error e => (.error e, [])
          | .ok users =>
            let newUserID := selectNewReviewer users oldUserID pr.reviewers
            if newUserID == uuidNil then (.error .errNoAvailableReviewer, [])
            else
              match g.replaceReviewer prID oldUserID newUserID with
              | .error e => (.error e, [.replaceReviewer prID oldUserID newUserID])
              | .ok _ =>
                let newReviewers :=
                  (pr.reviewers.filter (fun r => r.id ≠ oldUserID)) ++
                    [{ id := newUserID, prid := pr.id, assignedAt := 0 }]
                (.ok { pr with reviewers := newReviewers },
                  [.replaceReviewer prID oldUserID newUserID])

/-- The member-creation loop of `PRService.TeamAdd`: each member gets
`TeamID = &team.ID` before `userRepo.Create`, which writes the generated
id back into the member.  Returns the loop outcome, the member list after
the in-place mutations, and the calls issued. -/
def createMembers (g : Gateway) (tid : UUID) :
    List User → (Except GoError Unit) × List User × List Call
  | [] => (.ok (), [], [])
  | m :: rest =>
    let m1 := { m with teamID := some tid }
    match g.userCreate m1 with
    | .error e => (.error e, m1 :: rest, [.userCreate m1])
    | .ok newID =>
      let m2 := { m1 with id := newID }
      let (res, restOut, calls) := createMembers g tid rest
      (res, m2 :: restOut, .userCreate m1 :: calls)

/-- `PRService.TeamAdd`: create the team (duplicate maps to
`ErrTeamAlreadyExists`), then create each member with its `TeamID` set to
the created team's id.  The returned `Team` is the input aggregate after
the in-place mutations the Go code performs. -/
def TeamAdd (g : Gateway) (team : Team) :
    (Except GoError Unit) × Team × List Call :=
  match g.teamCreate team with
  | .error e =>
    if errorIs e .errDuplicate then
      (.error .errTeamAlreadyExists, team, [.teamCreate team])
    else (.error e, team, [.teamCreate team])
  | .ok tid =>
    let (res, membersOut, calls) := createMembers g tid team.members
    (res, { team with id := tid, members := membersOut },
      .teamCreate team :: calls)

/-- `PRService.UsersSetIsActive`: `UpdateActive` then `GetUserByID`,
with no transaction wrapper (`trManager.Do` is not used by this method,
unlike `CreatePR`/`PRMerge`/`PRReassign`/`TeamAdd`). -/
def UsersSetIsActive (g : Gateway) (userID : UUID) (active : Bool) :
    (Except GoError User) × List Call :=
  match g.updateActive userID active with
  | .error e => (.error e, [.updateActive userID active])
  | .ok _ =>
    match g.userGetByID userID with
    | .error e => (.error e, [.updateActive userID active])
    | .ok user => (.ok user, [.updateActive userID active])

/-- Whether `PRService.PRMerge` runs inside `trManager.Do` (it does). -/
def prMergeUsesTx : Bool := true

/-- Whether `PRService.UsersSetIsActive` runs inside `trManager.Do`
(it does not: the method issues its two gateway calls directly). -/
def usersSetIsActiveUsesTx : Bool := false

/-! ## Store semantics of the persistence layer

Translated from `internal/repository/*.go` together with the SQL
migrations: a `Store` holds the `pull_requests` rows (each carrying its
`pr_reviewers` rows), the `users` rows and the `teams` rows; `now` is the
database clock and `nextID` the id generator behind `RETURNING id`. -/

structure Store where
  prs : List PullRequest
  users : List User
  teams : List Team
  now : Nat
  nextID : UUID
deriving Repr

/-- `SELECT ... FROM pull_requests pr LEFT JOIN pr_reviewers ... WHERE
pr.id = $1` restricted to the found/not-found outcome the service sees. -/
def Store.findPR (s : Store) (id : UUID) : Option PullRequest :=
  s.prs.find? (fun pr => pr.id == id)

/-- The state effect of one mutating repository call, from the SQL in
`internal/repository/pr_repository.go` / `user_repository.go` /
`team_repository.go`:
* `merge`: `UPDATE pull_requests SET status='MERGED', merged_at=now()
  WHERE id=$1`;
* `updateActive`: `UPDATE users SET is_active=$2 WHERE id=$1`;
* `assignReviewers`: `DELETE FROM pr_reviewers WHERE pull_request_id=$1`
  then insert the given ids with `assigned_at=now`;
* `replaceReviewer`: delete the old row then insert the new one with
  `ON CONFLICT DO NOTHING` (primary key `(pull_request_id, id)`);
* `prCreate` / `userCreate` / `teamCreate`: plain inserts. -/
def applyCall (s : Store) : Call → Store
  | .merge id =>
    { s with prs := s.prs.map (fun pr =>
        if pr.id == id then
          { pr with status := PRStatusMerged, mergedAt := some s.now }
        else pr) }
  | .updateActive uid active =>
    { s with users := s.users.map (fun u =>
        if u.id == uid then { u with isActive := active } else u) }
  | .assignReviewers prID ids =>
    { s with prs := s.prs.map (fun pr =>
        if pr.id == prID then
          { pr with reviewers :=
              ids.map (fun i => { id := i, prid := prID, assignedAt := s.now }) }
        else pr) }
  | .replaceReviewer prID oldID newID =>
    { s with prs := s.prs.map (fun pr =>
        if pr.id == prID then
          let removed := pr.reviewers.filter (fun r => !(r.id == oldID))
          if removed.any (fun r => r.id == newID) then
            { pr with reviewers := removed }
          else
            { pr with reviewers :=
                removed ++ [{ id := newID, prid := prID, assignedAt := s.now }] }
        else pr) }
  | .prCreate pr => { s with prs := s.prs ++ [pr] }
  | .userCreate u =>
    { s with users := s.users ++ [{ u with id := s.nextID }],
             nextID := s.nextID + 1 }
  | .teamCreate t =>
    { s with teams := s.teams ++ [{ id := s.nextID, name := t.name, members := [] }],
             nextID := s.nextID + 1 }

/-- The gateway backed by a store snapshot, from the queries in
`internal/repository/*.go` (with `wrapDBError`, absent from the snapshot,
modelled from the spec: a query that finds no row surfaces the typed
not-found failure, §6).  Mutations report their outcome; their state
effect is `applyCall`. -/
def storeGateway (s : Store) : Gateway where
  prCreate := fun pr =>
    if s.prs.any (fun p => p.id == pr.id) then .error .errDuplicate
    else if s.users.any (fun u => u.id == pr.authorID) then .ok ()
    else .error .errForeignKeyViolation
  prGetByID := fun id =>
    match s.findPR id with
    | some pr => .ok pr
    | none => .error .errNotFound
  assignReviewers := fun _ _ => .ok ()
  replaceReviewer := fun prID oldID _ =>
    if s.prs.any (fun pr => pr.id == prID &&
        pr.reviewers.any (fun r => r.id == oldID)) then .ok ()
    else .error .errNotFound
  prMerge := fun _ => .ok ()
  listByReviewer := fun uid =>
    .ok ((s.prs.filter (fun pr => pr.reviewers.any (fun r => r.id == uid))).map
      (fun pr => { pr with reviewers := [] }))
  userGetByID := fun id =>
    match s.users.find? (fun u => u.id == id) with
    | some u => .ok u
    | none => .error .errNotFound
  getActiveByTeam := fun tid =>
    .ok (s.users.filter (fun u => u.teamID == some tid && u.isActive))
  getByTeam := fun tid => .ok (s.users.filter (fun u => u.teamID == some tid))
  userCreate := fun _ => .ok s.nextID
  updateActive := fun _ _ => .ok ()
  teamCreate := fun t =>
    if s.teams.any (fun t0 => t0.name == t.name) then .error .errDuplicate
    else .ok s.nextID
  teamGetByName := fun name =>
    match s.teams.find? (fun t => t.name == name) with
    | some t => .ok { id := t.id, name := t.name, members := [] }
    | none => .error .errNotFound

/-- Whether an operation outcome is an error. -/
def exceptFailed : Except GoError α → Bool
  | .error _ => true
  | .ok _ => false

/-- Commit semantics of the transaction manager (spec §4.2: "if `fn`
returns a non-nil error, the transaction is rolled back ... if `fn`
returns nil, the transaction commits"; `TxManagerStub` and operations
outside `trManager.Do` apply their effects unconditionally). -/
def commitStore (usesTx : Bool) (failed : Bool) (log : List Call)
    (s : Store) : Store :=
  if usesTx && failed then s else log.foldl applyCall s

/-- One full `PRMerge` operation against the durable store: the service
body runs against the snapshot gateway (inside `PRMerge` every read
precedes the single write), then the transaction commits or rolls back. -/
def runPRMerge (s : Store) (id : UUID) :
    (Except GoError PullRequest) × Store × List Call :=
  let (res, log) := PRMerge (storeGateway s) id
  (res, commitStore prMergeUsesTx (exceptFailed res) log s, log)

/-! ## Helper lemmas -/

/-- A deterministically failing operation under a retryable error uses
all remaining attempts. -/
theorem retryGo_const_retryable (e : GoError) (isR : GoError → Bool)
    (hR : isR e = true) :
    ∀ fuel attempt,
      retryGo isR (fun _ => .error e) attempt fuel = (.error e, attempt + fuel) := by
  intro fuel
  induction fuel with
  | zero =>
    intro attempt
    rw [retryGo.eq_1]
    simp [hR]
  | succ n ih =>
    intro attempt
    rw [retryGo.eq_1]
    simp only [hR, Bool.not_true, Bool.false_eq_true, if_false]
    rw [ih (attempt + 1)]
    simp only [Prod.mk.injEq, true_and]
    omega

/-- A deterministically failing operation under a non-retryable error
stops at the current attempt. -/
theorem retryGo_const_nonretryable (e : GoError) (isR : GoError → Bool)
    (hR : isR e = false) (fuel attempt : Nat) :
    retryGo isR (fun _ => .error e) attempt fuel = (.error e, attempt) := by
  rw [retryGo.eq_1]
  simp [hR]

/-- C4: `isRetryableFunc` returns false exactly on the five sentinel
kinds not-found, duplicate-key, invalid-identifier,
foreign-key-violation and transaction-aborted (matched via `errors.Is`);
every other error is retryable, so under the Retry Policy a
deterministically failing operation is attempted up to the configured
attempt cap, while the five kinds cause exactly one attempt. -/
theorem claim_C4 :
    (∀ e : GoError, isRetryableFunc e = false ↔
      (errorIs e .errNotFound || errorIs e .errDuplicate ||
       errorIs e .errInvalidID || errorIs e .errForeignKeyViolation ||
       errorIs e .errTxAborted) = true) ∧
    (∀ (e : GoError) (maxAttempts : Nat), 1 ≤ maxAttempts →
      isRetryableFunc e = false →
      retryDo maxAttempts isRetryableFunc (fun _ => .error e) = (.error e, 1)) ∧
    (∀ (e : GoError) (maxAttempts : Nat), 1 ≤ maxAttempts →
      isRetryableFunc e = true →
      retryDo maxAttempts isRetryableFunc (fun _ => .error e) =
        (.error e, maxAttempts)) := by
  refine ⟨?_, ?_, ?_⟩
  · intro e
    cases e <;> simp [isRetryableFunc, unretryableErrors, errorIs]
  · intro e maxAttempts _ hnr
    unfold retryDo
    rw [retryGo_const_nonretryable e isRetryableFunc hnr]
  · intro e maxAttempts hmax hr
    unfold retryDo
    rw [retryGo_const_retryable e isRetryableFunc hr]
    simp only [Prod.mk.injEq, true_and]
    omega

/-- Witness for C4 at concrete inputs: `ErrNotFound` is classified
non-retryable and uses one attempt at cap 3; a generic error is
retryable and uses all 3 attempts. -/
theorem claim_C4_witness :
    (isRetryableFunc .errNotFound = false ↔
      (errorIs GoError.errNotFound .errNotFound ||
       errorIs GoError.errNotFound .errDuplicate ||
       errorIs GoError.errNotFound .errInvalidID ||
       errorIs GoError.errNotFound .errForeignKeyViolation ||
       errorIs GoError.errNotFound .errTxAborted) = true) ∧
    retryDo 3 isRetryableFunc (fun _ => .error .errNotFound) =
      (.error .errNotFound, 1) ∧
    retryDo 3 isRetryableFunc (fun _ => .error (.other 7)) =
      (.error (.other 7), 3) :=
  ⟨claim_C4.1 .errNotFound,
   claim_C4.2.1 .errNotFound 3 (by decide) (by decide),
   claim_C4.2.2 (.other 7) 3 (by decide) (by decide)⟩

/-- The candidate scan is the first pool member that differs from the
old reviewer and is not already a reviewer on the PR (or `uuid.Nil` when
there is none). -/
theorem selectNewReviewer_eq_find (users : List User) (old : UUID)
    (revs : List PRReviewer) :
    selectNewReviewer users old revs =
      ((users.find? (fun u =>
          decide (u.id ≠ old) && !(revs.any (fun r => r.id == u.id)))).map
        (fun u => u.id)).getD uuidNil := by
  induction users with
  | nil => simp [selectNewReviewer]
  | cons u rest ih =>
    by_cases hne : u.id = old
    · simp [selectNewReviewer, hne, List.find?_cons, ih]
    · by_cases hrev : revs.any (fun r => r.id == u.id)
      · simp [selectNewReviewer, hne, List.find?_cons, hrev, ih]
      · simp [selectNewReviewer, hne, List.find?_cons, hrev]

/-- A candidate chosen by the scan (any non-`Nil` result) differs from
the old reviewer and from every current reviewer of the PR. -/
theorem selectNewReviewer_spec (users : List User) (old : UUID)
    (revs : List PRReviewer)
    (h : selectNewReviewer users old revs ≠ uuidNil) :
    selectNewReviewer users old revs ≠ old ∧
      ∀ r ∈ revs, r.id ≠ selectNewReviewer users old revs := by
  rw [selectNewReviewer_eq_find] at h ⊢
  cases hfind : users.find? (fun u =>
      decide (u.id ≠ old) && !(revs.any (fun r => r.id == u.id))) with
  | none => rw [hfind] at h; simp at h
  | some u =>
    simp only [Option.map_some', Option.getD_some]
    have hu := List.find?_some hfind
    rw [Bool.and_eq_true] at hu
    obtain ⟨hne, hany⟩ := hu
    refine ⟨of_decide_eq_true hne, ?_⟩
    intro r hr heq
    have hmem : (revs.any fun r => r.id == u.id) = true :=
      List.any_eq_true.mpr ⟨r, hr, by simp [heq]⟩
    rw [hmem] at hany
    simp at hany

/-- When every pool member is the old reviewer or already a reviewer on
the PR, the scan leaves `newUserID` at `uuid.Nil`. -/
theorem selectNewReviewer_none (users : List User) (old : UUID)
    (revs : List PRReviewer)
    (h : ∀ u ∈ users, u.id = old ∨ revs.any (fun r => r.id == u.id) = true) :
    selectNewReviewer users old revs = uuidNil := by
  rw [selectNewReviewer_eq_find]
  have : users.find? (fun u =>
      decide (u.id ≠ old) && !(revs.any (fun r => r.id == u.id))) = none := by
    rw [List.find?_eq_none]
    intro u hu
    rcases h u hu with h1 | h2
    · simp [h1]
    · simp [h2]
  rw [this]
  rfl

/-- C1: every successful `PRReassign(prID, oldReviewerID)` issues exactly
one `ReplaceReviewer` mutation, and the reviewer list of the returned
PullRequest (a) no longer contains `oldReviewerID`, (b) contains the
newly chosen reviewer id exactly once, (c) has the newly chosen reviewer
id as its last element. -/
theorem claim_C1 (g : Gateway) (prID oldUserID : UUID)
    (result : PullRequest) (log : List Call)
    (h : PRReassign g prID oldUserID = (.ok result, log)) :
    ∃ newID, log = [Call.replaceReviewer prID oldUserID newID] ∧
      (∀ r ∈ result.reviewers, r.id ≠ oldUserID) ∧
      (result.reviewers.map PRReviewer.id).count newID = 1 ∧
      result.reviewers.getLast?.map PRReviewer.id = some newID := by
  unfold PRReassign at h
  split at h
  · simp at h
  next pr heq =>
    split at h
    · simp at h
    next hmerged =>
      split at h
      · simp at h
      next hassigned =>
        split at h
        · simp at h
        next author hauth =>
          split at h
          · simp at h
          next teamID hteam =>
            split at h
            · simp at h
            next users husers =>
              simp only [] at h
              split at h
              · simp at h
              next hsel =>
                split at h
                · simp at h
                next hrepl =>
                  simp only [Prod.mk.injEq, Except.ok.injEq] at h
                  obtain ⟨hres, hlog⟩ := h
                  have hnil : selectNewReviewer users oldUserID pr.reviewers ≠ uuidNil := by
                    simpa using hsel
                  obtain ⟨hold, hnot⟩ :=
                    selectNewReviewer_spec users oldUserID pr.reviewers hnil
                  refine ⟨selectNewReviewer users oldUserID pr.reviewers,
                    hlog.symm, ?_, ?_, ?_⟩
                  · intro r hr
                    rw [← hres] at hr
                    simp only [List.mem_append, List.mem_filter,
                      List.mem_singleton] at hr
                    rcases hr with ⟨_, hpred⟩ | hr
                    · simpa using hpred
                    · subst hr; simpa using hold
                  · rw [← hres]
                    simp only [List.map_append, List.map_cons, List.map_nil,
                      List.count_append]
                    have hzero : ((pr.reviewers.filter
                        (fun r => r.id ≠ oldUserID)).map PRReviewer.id).count
                        (selectNewReviewer users oldUserID pr.reviewers) = 0 := by
                      rw [List.count_eq_zero]
                      intro hmem
                      simp only [List.mem_map, List.mem_filter] at hmem
                      obtain ⟨r, ⟨hrmem, _⟩, hrid⟩ := hmem
                      exact hnot r hrmem hrid
                    rw [hzero]
                    simp [List.count_cons]
                  · rw [← hres]
                    simp [List.getLast?_append]

/-- Team member fixtures for the concrete witnesses: three active users
of team 50. -/
def alice : User := { id := 1, teamID := some 50, name := "alice", isActive := true }

/-- Second active member of team 50. -/
def bob : User := { id := 2, teamID := some 50, name := "bob", isActive := true }

/-- Third active member of team 50. -/
def carol : User := { id := 3, teamID := some 50, name := "carol", isActive := true }

/-- An open PR authored by `alice` whose sole reviewer is `bob`. -/
def prX : PullRequest :=
  { id := 10, name := "feature", authorID := 1, status := PRStatusOpen,
    createdAt := 0, mergedAt := none,
    reviewers := [{ id := 2, prid := 10, assignedAt := 4 }] }

/-- A gateway oracle on which every call succeeds: `prX` is the stored
PR, `alice` the resolved author, `[bob, carol]` the active pool. -/
def gOK : Gateway :=
  { prCreate := fun _ => .ok ()
    prGetByID := fun _ => .ok prX
    assignReviewers := fun _ _ => .ok ()
    replaceReviewer := fun _ _ _ => .ok ()
    prMerge := fun _ => .ok ()
    listByReviewer := fun _ => .ok []
    userGetByID := fun _ => .ok alice
    getActiveByTeam := fun _ => .ok [bob, carol]
    getByTeam := fun _ => .ok [alice, bob, carol]
    userCreate := fun u => .ok u.id
    updateActive := fun _ _ => .ok ()
    teamCreate := fun _ => .ok 50
    teamGetByName := fun _ => .error .errNotFound }

/-- `prX` after reassigning `bob` away: `carol` is the single reviewer,
appended last. -/
def prXafter : PullRequest :=
  { id := 10, name := "feature", authorID := 1, status := PRStatusOpen,
    createdAt := 0, mergedAt := none,
    reviewers := [{ id := 3, prid := 10, assignedAt := 0 }] }

/-- Witness for C1: reassigning reviewer 2 on `prX` over `gOK` succeeds
with replacement reviewer 3, and the postconditions hold concretely. -/
theorem claim_C1_witness :
    ∃ newID,
      ([Call.replaceReviewer 10 2 3] : List Call) =
        [Call.replaceReviewer 10 2 newID] ∧
      (∀ r ∈ prXafter.reviewers, r.id ≠ 2) ∧
      (prXafter.reviewers.map PRReviewer.id).count newID = 1 ∧
      prXafter.reviewers.getLast?.map PRReviewer.id = some newID :=
  claim_C1 gOK 10 2 prXafter [Call.replaceReviewer 10 2 3] (by rfl)

/-- The "slice to 2" step of `CreatePR` is `List.take 2`. -/
theorem sliceToTwo_eq_take (l : List User) :
    (if l.length > 2 then l.take 2 else l) = l.take 2 := by
  split
  · rfl
  · exact (List.take_of_length_le (by omega)).symm

/-- C2: a successful `CreatePR` persists, via `AssignReviewers`, exactly
the ids of the first `min(2, n)` users of the active-team pool in the
gateway's order (`n` the pool size); in particular the persisted
reviewer count is `min(2, n)`, including zero for an empty pool. -/
theorem claim_C2 (g : Gateway) (pr : PullRequest) (author : User)
    (tid : UUID) (pool : List User)
    (hauthor : g.userGetByID pr.authorID = .ok author)
    (hteam : author.teamID = some tid)
    (hpool : g.getActiveByTeam tid = .ok pool)
    (hok : (CreatePR g pr).1 = .ok ()) :
    (CreatePR g pr).2 =
      [Call.prCreate pr,
       Call.assignReviewers pr.id ((pool.take 2).map (fun u => u.id))] ∧
    ((pool.take 2).map (fun u => u.id)).length = min 2 pool.length := by
  have hlen : ((pool.take 2).map (fun u => u.id)).length = min 2 pool.length := by
    simp [List.length_take]
  refine ⟨?_, hlen⟩
  unfold CreatePR at hok ⊢
  cases hc : g.prCreate pr with
  | error e => rw [hc] at hok; simp at hok
  | ok _ =>
    simp only [hc, hauthor, hteam, hpool, sliceToTwo_eq_take] at hok ⊢
    split <;> rfl

/-- Witness for C2: over `gOK` (pool `[bob, carol]`, size 2) creating a
PR authored by `alice` persists exactly `[2, 3]`, count `min 2 2 = 2`. -/
theorem claim_C2_witness :
    (CreatePR gOK
      { id := 11, name := "w", authorID := 1, status := PRStatusOpen,
        createdAt := 0, mergedAt := none, reviewers := [] }).2 =
      [Call.prCreate
        { id := 11, name := "w", authorID := 1, status := PRStatusOpen,
          createdAt := 0, mergedAt := none, reviewers := [] },
       Call.assignReviewers 11 (([bob, carol].take 2).map (fun u => u.id))] ∧
    (([bob, carol].take 2).map (fun u => u.id)).length =
      min 2 ([bob, carol] : List User).length :=
  claim_C2 gOK
    { id := 11, name := "w", authorID := 1, status := PRStatusOpen,
      createdAt := 0, mergedAt := none, reviewers := [] }
    alice 50 [bob, carol] (by rfl) (by rfl) (by rfl) (by rfl)

/-- `gOK` with a 3-member active pool that contains the author `alice`
first (the gateway may return the pool in any order, and nothing excludes
the author from it). -/
def gPool3 : Gateway :=
  { gOK with getActiveByTeam := fun _ => .ok [alice, bob, carol] }

/-- A PR authored by `alice` (a member of the 3-strong active team). -/
def prC5 : PullRequest :=
  { id := 11, name := "self", authorID := 1, status := PRStatusOpen,
    createdAt := 0, mergedAt := none, reviewers := [] }

/-- Counterexample to C5: with a team of 3 active members
(`alice, bob, carol`) and a PR authored by `alice`, when the gateway
returns the pool with the author first, the successful `CreatePR`
persists reviewers `[1, 2]` — and `1` is the author, refuting "neither
of which equals the author, regardless of the order in which the gateway
returns the active-user pool". -/
theorem claim_C5_counterexample :
    (CreatePR gPool3 prC5).1 = .ok () ∧
    (CreatePR gPool3 prC5).2 =
      [Call.prCreate prC5, Call.assignReviewers 11 [1, 2]] ∧
    prC5.authorID = 1 :=
  ⟨rfl, rfl, rfl⟩

/-- C5 (amended): for every team of 3 active members and every PR
authored by one of them, a successful `CreatePR` assigns exactly 2
distinct reviewers, namely the first two users of the pool in the
gateway's order; the author is not excluded, so the author is
self-assigned exactly when among the first two. -/
theorem claim_C5_amended (g : Gateway) (pr : PullRequest) (author : User)
    (tid : UUID) (u1 u2 u3 : User)
    (hauthor : g.userGetByID pr.authorID = .ok author)
    (hteam : author.teamID = some tid)
    (hpool : g.getActiveByTeam tid = .ok [u1, u2, u3])
    (hdistinct : u1.id ≠ u2.id)
    (hok : (CreatePR g pr).1 = .ok ()) :
    (CreatePR g pr).2 =
      [Call.prCreate pr, Call.assignReviewers pr.id [u1.id, u2.id]] ∧
    ([u1.id, u2.id] : List UUID).length = 2 ∧ u1.id ≠ u2.id := by
  refine ⟨?_, rfl, hdistinct⟩
  unfold CreatePR at hok ⊢
  cases hc : g.prCreate pr with
  | error e => rw [hc] at hok; simp at hok
  | ok _ =>
    simp only [hc, hauthor, hteam, hpool, sliceToTwo_eq_take] at hok ⊢
    split <;> rfl

/-- Witness for the amended C5: `gPool3` returns the 3-member pool
`[alice, bob, carol]`; the successful creation persists the two distinct
ids `[1, 2]`. -/
theorem claim_C5_amended_witness :
    (CreatePR gPool3 prC5).2 =
      [Call.prCreate prC5, Call.assignReviewers prC5.id [alice.id, bob.id]] ∧
    ([alice.id, bob.id] : List UUID).length = 2 ∧ alice.id ≠ bob.id :=
  claim_C5_amended gPool3 prC5 alice 50 alice bob carol
    (by rfl) (by rfl) (by rfl) (by decide) (by rfl)

/-- C7: when `oldReviewerID` is assigned on an OPEN PR but every member
of the active pool is either `oldReviewerID` or already a reviewer on
the PR, `PRReassign` fails with the no-available-reviewer domain error,
issues no `ReplaceReviewer` call (empty mutation log), and hence leaves
the PR's reviewer list unchanged. -/
theorem claim_C7 (g : Gateway) (prID oldUserID : UUID) (pr : PullRequest)
    (author : User) (tid : UUID) (users : List User)
    (hget : g.prGetByID prID = .ok pr)
    (hopen : pr.status = PRStatusOpen)
    (hass : pr.reviewers.any (fun r => r.id == oldUserID) = true)
    (hauthor : g.userGetByID pr.authorID = .ok author)
    (hteam : author.teamID = some tid)
    (hpool : g.getActiveByTeam tid = .ok users)
    (hnone : ∀ u ∈ users, u.id = oldUserID ∨
      pr.reviewers.any (fun r => r.id == u.id) = true) :
    PRReassign g prID oldUserID = (.error .errNoAvailableReviewer, []) := by
  have hsel := selectNewReviewer_none users oldUserID pr.reviewers hnone
  unfold PRReassign
  rw [hget]
  simp [hopen, hass, hauthor, hteam, hpool, hsel, PRStatusOpen, PRStatusMerged]

/-- `gOK` restricted to an active pool containing only the sole current
reviewer `bob` — the scenario of the spec: a PR with one reviewer and no
other active team member. -/
def gNoCand : Gateway :=
  { gOK with getActiveByTeam := fun _ => .ok [bob] }

/-- Witness for C7: reassigning `bob` on `prX` when the pool is `[bob]`
fails with the no-available-reviewer error and an empty mutation log. -/
theorem claim_C7_witness :
    PRReassign gNoCand 10 2 = (.error .errNoAvailableReviewer, []) :=
  claim_C7 gNoCand 10 2 prX alice 50 [bob]
    (by rfl) (by rfl) (by rfl) (by rfl) (by rfl) (by rfl) (by decide)

/-- The mutation log of `PRReassign` is either empty or a single
`ReplaceReviewer` call whose replacement id is not `uuid.Nil` (the scan
result is guarded by the `newUserID == uuid.Nil` check). -/
theorem PRReassign_log_cases (g : Gateway) (prID oldUserID : UUID) :
    (PRReassign g prID oldUserID).2 = [] ∨
    ∃ newID, newID ≠ uuidNil ∧
      (PRReassign g prID oldUserID).2 =
        [Call.replaceReviewer prID oldUserID newID] := by
  unfold PRReassign
  split
  · left; rfl
  next pr heq =>
    split
    · left; rfl
    · split
      · left; rfl
      · split
        · left; rfl
        next author hauth =>
          split
          · left; rfl
          next tid hteam =>
            split
            · left; rfl
            next users husers =>
              simp only []
              split
              · left; rfl
              next hsel =>
                refine Or.inr ⟨selectNewReviewer users oldUserID pr.reviewers,
                  by simpa using hsel, ?_⟩
                split <;> rfl

/-- C9: `PRReassign` uses the zero UUID as its not-found sentinel: no
`ReplaceReviewer` mutation ever carries a zero replacement id, and when
the first eligible candidate of the active pool has the zero UUID the
operation reports the no-available-reviewer domain error (with no
mutation) even though that eligible candidate exists. -/
theorem claim_C9 (g : Gateway) (prID oldUserID : UUID) (pr : PullRequest)
    (author : User) (tid : UUID) (users : List User) (u0 : User)
    (hget : g.prGetByID prID = .ok pr)
    (hopen : pr.status = PRStatusOpen)
    (hass : pr.reviewers.any (fun r => r.id == oldUserID) = true)
    (hauthor : g.userGetByID pr.authorID = .ok author)
    (hteam : author.teamID = some tid)
    (hpool : g.getActiveByTeam tid = .ok users)
    (hfirst : users.find? (fun u => decide (u.id ≠ oldUserID) &&
        !(pr.reviewers.any (fun r => r.id == u.id))) = some u0)
    (hnil : u0.id = uuidNil) :
    (∀ (g' : Gateway) (p o p2 o2 n : UUID),
        Call.replaceReviewer p2 o2 n ∈ (PRReassign g' p o).2 → n ≠ uuidNil) ∧
    PRReassign g prID oldUserID = (.error .errNoAvailableReviewer, []) := by
  constructor
  · intro g' p o p2 o2 n hmem
    rcases PRReassign_log_cases g' p o with hnl | ⟨m, hm, hlog⟩
    · rw [hnl] at hmem; simp at hmem
    · rw [hlog] at hmem
      simp only [List.mem_singleton] at hmem
      injection hmem with h1 h2 h3
      subst h3
      exact hm
  · have hsel : selectNewReviewer users oldUserID pr.reviewers = uuidNil := by
      rw [selectNewReviewer_eq_find, hfirst]
      simpa using hnil
    unfold PRReassign
    rw [hget]
    simp [hopen, hass, hauthor, hteam, hpool, hsel, PRStatusOpen, PRStatusMerged]

/-- An active team member carrying the zero UUID as id (`uuid.Nil` is a
legal `uuid.UUID` value for a user record). -/
def zed : User := { id := 0, teamID := some 50, name := "zed", isActive := true }

/-- `gOK` with `zed` as the only remaining active-pool candidate. -/
def gZero : Gateway :=
  { gOK with getActiveByTeam := fun _ => .ok [zed] }

/-- Witness for C9: with pool `[zed]`, `zed` is eligible (not the old
reviewer, not yet assigned) yet the operation reports
no-available-reviewer with no mutation. -/
theorem claim_C9_witness :
    (∀ (g' : Gateway) (p o p2 o2 n : UUID),
        Call.replaceReviewer p2 o2 n ∈ (PRReassign g' p o).2 → n ≠ uuidNil) ∧
    PRReassign gZero 10 2 = (.error .errNoAvailableReviewer, []) :=
  claim_C9 gZero 10 2 prX alice 50 [zed] zed
    (by rfl) (by rfl) (by rfl) (by rfl) (by rfl) (by rfl) (by decide) (by rfl)

/-- After the merge mutation commits, re-fetching the PR yields the
record with status MERGED and the merge timestamp set. -/
theorem findPR_applyMerge (s : Store) (id : UUID) (pr : PullRequest)
    (hfind : s.findPR id = some pr) :
    (applyCall s (.merge id)).findPR id =
      some { pr with status := PRStatusMerged, mergedAt := some s.now } := by
  have hid : pr.id = id := by
    have := List.find?_some hfind
    simpa using this
  unfold Store.findPR applyCall
  simp only []
  rw [List.find?_map]
  have hcomp : ((fun p => p.id == id) ∘ (fun p : PullRequest =>
      if p.id == id then { p with status := PRStatusMerged, mergedAt := some s.now }
      else p)) = (fun p => p.id == id) := by
    funext p
    by_cases h : p.id = id
    · simp [h]
    · simp [h]
  rw [hcomp]
  unfold Store.findPR at hfind
  rw [hfind]
  simp [hid]

/-- C6: a successful `PRMerge` on a PR fetched with status OPEN returns
exactly the object as fetched before the mutation — status still OPEN,
merge timestamp still nil — even though the committed store afterwards
holds the PR with status MERGED and the timestamp set. -/
theorem claim_C6 (s : Store) (id : UUID) (pr : PullRequest)
    (hfind : s.findPR id = some pr)
    (hopen : pr.status = PRStatusOpen)
    (hmer : pr.mergedAt = none) :
    (runPRMerge s id).1 = .ok pr ∧
    pr.status = PRStatusOpen ∧ pr.mergedAt = none ∧
    (runPRMerge s id).2.1.findPR id =
      some { pr with status := PRStatusMerged, mergedAt := some s.now } := by
  have hg : (storeGateway s).prGetByID id = .ok pr := by
    simp [storeGateway, hfind]
  have h1 : PRMerge (storeGateway s) id = (.ok pr, [Call.merge id]) := by
    unfold PRMerge
    rw [hg]
    simp [hopen, PRStatusOpen, PRStatusMerged, storeGateway]
  have h2 : runPRMerge s id = (.ok pr, applyCall s (.merge id), [Call.merge id]) := by
    unfold runPRMerge
    rw [h1]
    simp [commitStore, exceptFailed, prMergeUsesTx]
  rw [h2]
  exact ⟨rfl, hopen, hmer, findPR_applyMerge s id pr hfind⟩

/-- An open PR with no reviewers, stored alone in `storeM` (database
clock 7). -/
def prM : PullRequest :=
  { id := 10, name := "m", authorID := 1, status := PRStatusOpen,
    createdAt := 0, mergedAt := none, reviewers := [] }

/-- A store holding only `prM` and its author. -/
def storeM : Store :=
  { prs := [prM], users := [alice], teams := [], now := 7, nextID := 100 }

/-- Witness for C6: merging the open `prM` returns the pre-merge record
while the store afterwards holds the merged one. -/
theorem claim_C6_witness :
    (runPRMerge storeM 10).1 = .ok prM ∧
    prM.status = PRStatusOpen ∧ prM.mergedAt = none ∧
    (runPRMerge storeM 10).2.1.findPR 10 =
      some { prM with status := PRStatusMerged, mergedAt := some 7 } :=
  claim_C6 storeM 10 prM (by rfl) (by rfl) (by rfl)

/-- C3 (amended): merging a PR fetched in MERGED status returns the
fetched record with nil error, issues no mutating call and leaves the
store unchanged; consequently a second merge of an initially-open PR
performs no further mutation (one underlying mutation in total) — but it
returns the PR as then fetched, with status MERGED and the timestamp
set, rather than the first call's pre-merge result. -/
theorem claim_C3_amended (s : Store) (id : UUID) (pr : PullRequest)
    (hfind : s.findPR id = some pr) :
    (pr.status = PRStatusMerged →
      runPRMerge s id = (.ok pr, s, [])) ∧
    (pr.status = PRStatusOpen →
      runPRMerge s id = (.ok pr, applyCall s (.merge id), [Call.merge id]) ∧
      (runPRMerge (applyCall s (.merge id)) id).1 =
        .ok { pr with status := PRStatusMerged, mergedAt := some s.now } ∧
      (runPRMerge (applyCall s (.merge id)) id).2.2 = []) := by
  have hg : (storeGateway s).prGetByID id = .ok pr := by
    simp [storeGateway, hfind]
  constructor
  · intro hm
    have h1 : PRMerge (storeGateway s) id = (.ok pr, []) := by
      unfold PRMerge
      rw [hg]
      simp [hm, PRStatusMerged]
    unfold runPRMerge
    rw [h1]
    simp [commitStore, exceptFailed, prMergeUsesTx]
  · intro hopen
    have h1 : PRMerge (storeGateway s) id = (.ok pr, [Call.merge id]) := by
      unfold PRMerge
      rw [hg]
      simp [hopen, PRStatusOpen, PRStatusMerged, storeGateway]
    have h2 : runPRMerge s id = (.ok pr, applyCall s (.merge id), [Call.merge id]) := by
      unfold runPRMerge
      rw [h1]
      simp [commitStore, exceptFailed, prMergeUsesTx]
    refine ⟨h2, ?_, ?_⟩
    · have hfind2 := findPR_applyMerge s id pr hfind
      have hg2 : (storeGateway (applyCall s (.merge id))).prGetByID id =
          .ok { pr with status := PRStatusMerged, mergedAt := some s.now } := by
        simp [storeGateway, hfind2]
      have h3 : PRMerge (storeGateway (applyCall s (.merge id))) id =
          (.ok { pr with status := PRStatusMerged, mergedAt := some s.now }, []) := by
        unfold PRMerge
        rw [hg2]
        simp [PRStatusMerged]
      unfold runPRMerge
      rw [h3]
    · have hfind2 := findPR_applyMerge s id pr hfind
      have hg2 : (storeGateway (applyCall s (.merge id))).prGetByID id =
          .ok { pr with status := PRStatusMerged, mergedAt := some s.now } := by
        simp [storeGateway, hfind2]
      have h3 : PRMerge (storeGateway (applyCall s (.merge id))) id =
          (.ok { pr with status := PRStatusMerged, mergedAt := some s.now }, []) := by
        unfold PRMerge
        rw [hg2]
        simp [PRStatusMerged]
      unfold runPRMerge
      rw [h3]

/-- Counterexample to C3's final clause: merging the open `prM` twice
performs a single mutation, but the second call's result (the merged
record) differs from the first call's result (the pre-merge record), so
"a second merge returns the same result as the first" fails. -/
theorem claim_C3_counterexample :
    (runPRMerge storeM 10).1 = .ok prM ∧
    (runPRMerge (runPRMerge storeM 10).2.1 10).1 =
      .ok { prM with status := PRStatusMerged, mergedAt := some 7 } ∧
    (runPRMerge (runPRMerge storeM 10).2.1 10).1 ≠ (runPRMerge storeM 10).1 := by
  refine ⟨rfl, rfl, ?_⟩
  intro h
  rw [show (runPRMerge (runPRMerge storeM 10).2.1 10).1 =
      .ok { prM with status := PRStatusMerged, mergedAt := some 7 } from rfl,
    show (runPRMerge storeM 10).1 = .ok prM from rfl] at h
  simp [prM, PRStatusMerged, PRStatusOpen] at h

/-- Witness for the amended C3: the two sequential merges of `prM`, with
one `merge` mutation in the first call's log and none in the second. -/
theorem claim_C3_amended_witness :
    runPRMerge storeM 10 = (.ok prM, applyCall storeM (.merge 10), [Call.merge 10]) ∧
    (runPRMerge (applyCall storeM (.merge 10)) 10).1 =
      .ok { prM with status := PRStatusMerged, mergedAt := some 7 } ∧
    (runPRMerge (applyCall storeM (.merge 10)) 10).2.2 = [] :=
  (claim_C3_amended storeM 10 prM (by rfl)).2 (by rfl)

/-- C8: `UsersSetIsActive` runs outside any transaction scope: when
`UpdateActive` succeeds and the subsequent `GetUserByID` fails, the call
returns no user and the fetch error, yet its mutation log holds the
applied `UpdateActive` — committing that log (no rollback, since the
method does not use `trManager.Do`) leaves the active flag changed. -/
theorem claim_C8 (g : Gateway) (uid : UUID) (active : Bool) (e : GoError)
    (hupd : g.updateActive uid active = .ok ())
    (hget : g.userGetByID uid = .error e) :
    (UsersSetIsActive g uid active).1 = .error e ∧
    (UsersSetIsActive g uid active).2 = [Call.updateActive uid active] ∧
    usersSetIsActiveUsesTx = false ∧
    ∀ s : Store, ∀ u ∈ (commitStore usersSetIsActiveUsesTx true
        (UsersSetIsActive g uid active).2 s).users,
      u.id = uid → u.isActive = active := by
  have hrun : UsersSetIsActive g uid active =
      (.error e, [Call.updateActive uid active]) := by
    unfold UsersSetIsActive
    rw [hupd, hget]
  refine ⟨by rw [hrun], by rw [hrun], rfl, ?_⟩
  intro s u hu hid
  rw [hrun] at hu
  simp [commitStore, usersSetIsActiveUsesTx, applyCall] at hu
  obtain ⟨v, hv, huv⟩ := hu
  by_cases h : v.id = uid
  · rw [← huv]; simp [h]
  · rw [← huv] at hid
    simp [h] at hid

/-- The member-creation loop of `TeamAdd`, on success, stamps every
created member with the created team's id, in the arguments of the
`userCreate` calls as well as in the mutated member list. -/
theorem createMembers_ok (g : Gateway) (tid : UUID) :
    ∀ (ms : List User) (res : Except GoError Unit) (out : List User)
      (calls : List Call),
      createMembers g tid ms = (res, out, calls) →
      res = .ok () →
      (∀ m ∈ out, m.teamID = some tid) ∧
      (∀ u, Call.userCreate u ∈ calls → u.teamID = some tid) ∧
      out.length = ms.length := by
  intro ms
  induction ms with
  | nil =>
    intro res out calls h hres
    unfold createMembers at h
    simp only [Prod.mk.injEq] at h
    obtain ⟨h1, h2, h3⟩ := h
    subst h2; subst h3
    refine ⟨by simp, by simp, rfl⟩
  | cons m rest ih =>
    intro res out calls h hres
    unfold createMembers at h
    simp only [] at h
    cases hc : g.userCreate { m with teamID := some tid } with
    | error er =>
      rw [hc] at h
      simp only [Prod.mk.injEq] at h
      obtain ⟨h1, h2, h3⟩ := h
      rw [← h1] at hres
      simp at hres
    | ok newID =>
      rw [hc] at h
      simp only [] at h
      rcases hrec : createMembers g tid rest with ⟨res0, out0, calls0⟩
      rw [hrec] at h
      simp only [Prod.mk.injEq] at h
      obtain ⟨h1, h2, h3⟩ := h
      subst h1; subst h2; subst h3
      obtain ⟨hall, hcalls, hlen⟩ := ih res0 out0 calls0 hrec hres
      refine ⟨?_, ?_, by simpa using hlen⟩
      · intro x hx
        rcases List.mem_cons.mp hx with hx | hx
        · subst hx; rfl
        · exact hall x hx
      · intro u hu
        rcases List.mem_cons.mp hu with hu | hu
        · injection hu with hu2
          subst hu2; rfl
        · exact hcalls u hu

/-- C10: a successful `TeamAdd` mutates the input aggregate as a
postcondition — every member of the returned team carries
`TeamID = &team.ID` (the created team's id), every member passed to the
user gateway's `Create` already carried that id, and no member is
dropped. -/
theorem claim_C10 (g : Gateway) (team team' : Team) (log : List Call)
    (h : TeamAdd g team = (.ok (), team', log)) :
    (∀ m ∈ team'.members, m.teamID = some team'.id) ∧
    (∀ u, Call.userCreate u ∈ log → u.teamID = some team'.id) ∧
    team'.members.length = team.members.length := by
  unfold TeamAdd at h
  cases hc : g.teamCreate team with
  | error er =>
    rw [hc] at h
    simp only [] at h
    split at h <;> simp at h
  | ok tid =>
    rw [hc] at h
    simp only [] at h
    rcases hrec : createMembers g tid team.members with ⟨res0, out0, calls0⟩
    rw [hrec] at h
    simp only [Prod.mk.injEq] at h
    obtain ⟨hres, hteam, hlog⟩ := h
    obtain ⟨hall, hcalls, hlen⟩ :=
      createMembers_ok g tid team.members res0 out0 calls0 hrec hres
    subst hteam; subst hlog
    refine ⟨?_, ?_, ?_⟩
    · intro x hx
      exact hall x hx
    · intro u hu
      rcases List.mem_cons.mp hu with hu | hu
      · exact absurd hu (by simp)
      · exact hcalls u hu
    · exact hlen

/-- A two-member team aggregate as bound by the handler (members still
without a team reference). -/
def teamT : Team :=
  { id := 0, name := "team1",
    members := [{ id := 7, teamID := none, name := "dave", isActive := true },
                { id := 8, teamID := none, name := "erin", isActive := false }] }

/-- Witness for C10: adding `teamT` over `gOK` stamps both members with
the created team's id. -/
theorem claim_C10_witness :
    (∀ m ∈ (TeamAdd gOK teamT).2.1.members,
        m.teamID = some (TeamAdd gOK teamT).2.1.id) ∧
    (∀ u, Call.userCreate u ∈ (TeamAdd gOK teamT).2.2 →
        u.teamID = some (TeamAdd gOK teamT).2.1.id) ∧
    (TeamAdd gOK teamT).2.1.members.length = teamT.members.length :=
  claim_C10 gOK teamT (TeamAdd gOK teamT).2.1 (TeamAdd gOK teamT).2.2 (by rfl)

/-- `gOK` with a failing user fetch, the mock setting of the
"get user fails" unit test. -/
def gC8 : Gateway :=
  { gOK with userGetByID := fun _ => .error (.other 3) }

/-- Witness for C8: update succeeds, fetch fails; the error surfaces
while the flag change stays applied in any committed store. -/
theorem claim_C8_witness :
    (UsersSetIsActive gC8 1 true).1 = .error (.other 3) ∧
    (UsersSetIsActive gC8 1 true).2 = [Call.updateActive 1 true] ∧
    usersSetIsActiveUsesTx = false ∧
    ∀ s : Store, ∀ u ∈ (commitStore usersSetIsActiveUsesTx true
        (UsersSetIsActive gC8 1 true).2 s).users,
      u.id = 1 → u.isActive = true :=
  claim_C8 gC8 1 true (.other 3) (by rfl) (by rfl)
